import Mathlib

/-!
# Verification of the cryptopulse aggregation service

A shallow embedding of `src/app.py`: the relevance scorer
(`calculate_relevance_score`), the four source fetchers
(`fetch_from_coingecko`, `fetch_from_cryptopanic`, `fetch_crypto_prices`,
`fetch_from_newsapi`) and the aggregator (`fetch_crypto_news`).

Modelling conventions:
* Python strings are Lean `String`s; Python's substring test `a in b` is `pyIn`,
  `str.lower()` / `str.upper()` / `str.capitalize()` are `pyLower` / `pyUpper` /
  `pyCapitalize`, `str.split()` (split on whitespace runs, dropping empty
  pieces) is `pySplit`, and slicing `s[:n]` of a string is `pyTake`.  They are
  written by structural recursion over the character list so that concrete
  instances evaluate inside the kernel.
* Python floats are modelled as rationals (`ℚ`); the decimal literals of the
  source (`0.5`, `0.95`, `0.4`, `0.9`) become exact rationals.
* An outbound HTTP call is an `HttpResult`: either an exception raised at any
  step inside the fetcher's `try` block (`exn`), or a status code together with
  the parsed JSON payload (`response`).
* JSON payloads are modelled as structures whose fields are present; the
  `dict.get` defaults of the source apply only to absent keys and are not
  exercised by any claim.
* Python's `"{:,.2f}"` / `"{:,.0f}"` float formatting is abstracted by `fmt2` /
  `fmt0` (fixed-point rendering of a rational; comma grouping and binary
  floating-point rounding are not modelled — no claim depends on the digits).
-/

/-- Python's substring test `needle in hay` on lists of characters:
`true` iff `needle` occurs contiguously inside `hay`. -/
def pyInAux (needle : List Char) : List Char → Bool
  | [] => needle.isEmpty
  | c :: rest => needle.isPrefixOf (c :: rest) || pyInAux needle rest

/-- Python's substring test `needle in hay` for strings. -/
def pyIn (needle hay : String) : Bool :=
  pyInAux needle.toList hay.toList

/-- Python's `str.lower()` (ASCII; the queries and payload texts at stake are
ASCII). -/
def pyLower (s : String) : String :=
  ⟨s.data.map Char.toLower⟩

/-- Python's `str.upper()`. -/
def pyUpper (s : String) : String :=
  ⟨s.data.map Char.toUpper⟩

/-- Python's `str.capitalize()`: first character uppercased, the rest
lowercased. -/
def pyCapitalize (s : String) : String :=
  match s.data with
  | [] => ""
  | c :: rest => ⟨c.toUpper :: rest.map Char.toLower⟩

/-- Python's string slicing `s[:n]`. -/
def pyTake (s : String) (n : Nat) : String :=
  ⟨s.data.take n⟩

/-- Helper for `pySplit`: `acc` holds the characters of the current word in
reverse. -/
def pySplitAux : List Char → List Char → List String
  | [], acc => if acc.isEmpty then [] else [⟨acc.reverse⟩]
  | c :: rest, acc =>
      if c.isWhitespace then
        (if acc.isEmpty then [] else [⟨acc.reverse⟩]) ++ pySplitAux rest []
      else pySplitAux rest (c :: acc)

/-- Python's `str.split()`: split on whitespace runs, dropping empty pieces. -/
def pySplit (s : String) : List String :=
  pySplitAux s.data []

/-- The scorer `calculate_relevance_score` (src/app.py lines 294–316), translated line by
line: empty-input check, case-insensitive substring check, then keyword
matching over the query's words longer than 3 characters.  (`matchCount` is
the Python variable `matches`, a reserved word in Lean.) -/
def calculate_relevance_score (query text : String) : ℚ :=
  if query = "" ∨ text = "" then 1/2
  else
    let query_lower := pyLower query
    let text_lower := pyLower text
    if pyIn query_lower text_lower then 19/20
    else
      let query_words := (pySplit query_lower).filter (fun w => 3 < w.length)
      if query_words = [] then 1/2
      else
        let matchCount := query_words.countP (fun word => pyIn word text_lower)
        1/2 + ((matchCount : ℚ) / (query_words.length : ℚ)) * (2/5)

/-- The relevance scorer as the specification describes it (spec §4.3):
0.5 on an empty input; 0.95 on case-insensitive substring containment;
otherwise, with `W` the words of the lowercased query longer than 3
characters, 0.5 if `W` is empty and `0.5 + 0.4 × (|{w ∈ W : w occurs in the
lowercased text}| / |W|)` otherwise. -/
def relevanceSpec (query text : String) : ℚ :=
  if query = "" ∨ text = "" then 1/2
  else if pyIn (pyLower query) (pyLower text) then 19/20
  else
    let W := (pySplit (pyLower query)).filter (fun w => 3 < w.length)
    if W = [] then 1/2
    else 1/2 + (2/5) * (((W.filter (fun w => pyIn w (pyLower text))).length : ℚ) / (W.length : ℚ))

/-- A search result record as built by the fetchers: `result_metadata.score`,
`title`, `body`, `url`, `highlight.body`. -/
structure SearchResult where
  score : ℚ
  title : String
  body : String
  url : String
  highlightBody : List String
deriving Repr, DecidableEq

/-- One step of the stable descending sort: insert `r` in front of the first
element whose score is not larger.  `results.sort(key=..., reverse=True)` in
Python is the stable descending sort by score, and over a total preorder the
stable sort is unique, so insertion sort embeds it faithfully. -/
def insertDesc (r : SearchResult) : List SearchResult → List SearchResult
  | [] => [r]
  | x :: xs => if x.score ≤ r.score then r :: x :: xs else x :: insertDesc r xs

/-- Stable descending sort by score (`results.sort(key=score, reverse=True)`). -/
def sortDesc : List SearchResult → List SearchResult
  | [] => []
  | x :: xs => insertDesc x (sortDesc xs)

/-- The final step of `fetch_crypto_news` (src/app.py lines 77–79): sort by
score descending and keep the first 10. -/
def aggregateResults (results : List SearchResult) : List SearchResult :=
  (sortDesc results).take 10

/-- The result of one outbound HTTP call as seen by a fetcher's `try` block:
either an exception raised at some step (network error, malformed payload, …)
or a response with a status code and a parsed payload. -/
inductive HttpResult (α : Type) where
  | exn (msg : String)
  | response (status : Nat) (payload : α)
deriving Repr, DecidableEq

/-- Fixed two-decimal rendering of a rational, abstracting Python's float
formatting `"{:,.2f}"` (comma grouping and float rounding not modelled). -/
def fmt2 (q : ℚ) : String :=
  let sign := if q < 0 then "-" else ""
  let n : Nat := (|q| * 100).floor.toNat
  sign ++ toString (n / 100) ++ "." ++ (if n % 100 < 10 then "0" else "") ++ toString (n % 100)

/-- Integer rendering of a rational, abstracting Python's `"{:,.0f}"`. -/
def fmt0 (q : ℚ) : String :=
  let sign := if q < 0 then "-" else ""
  sign ++ toString (|q|.floor.toNat)

/-! ## CryptoPanic fetcher (src/app.py lines 81–138) -/

/-- The `source` object of a CryptoPanic post. -/
structure CryptoPanicSource where
  title : String
deriving Repr, DecidableEq

/-- The `votes` object of a CryptoPanic post. -/
structure CryptoPanicVotes where
  positive : Nat
deriving Repr, DecidableEq

/-- One element of the `results` array of a CryptoPanic response. -/
structure CryptoPanicPost where
  title : String
  source : CryptoPanicSource
  published_at : String
  url : String
  votes : CryptoPanicVotes
deriving Repr, DecidableEq

/-- A parsed CryptoPanic response body. -/
structure CryptoPanicPayload where
  results : List CryptoPanicPost
deriving Repr, DecidableEq

/-- The `coin_filters` table of `fetch_from_cryptopanic`, in source order. -/
def coin_filters : List (String × String) :=
  [("bitcoin", "BTC"), ("btc", "BTC"), ("ethereum", "ETH"),
   ("eth", "ETH"), ("solana", "SOL"), ("sol", "SOL")]

/-- The `&currencies=` parameter chosen by `fetch_from_cryptopanic`: the first
keyword of `coin_filters` contained in the lowercased query (the loop breaks at
the first hit). -/
def cryptopanicCurrency (query : String) : Option String :=
  (coin_filters.find? (fun kv => pyIn kv.1 (pyLower query))).map (fun kv => kv.2)

/-- The record `fetch_from_cryptopanic` appends for one post. -/
def cryptopanicRecord (query : String) (post : CryptoPanicPost) : SearchResult :=
  { score := calculate_relevance_score query post.title
    title := post.title
    body := post.title ++ ". " ++ post.source.title ++ " - Published: " ++ post.published_at
    url := post.url
    highlightBody :=
      [post.title,
       "Source: " ++ post.source.title,
       "Votes: " ++ toString post.votes.positive] }

/-- The fetcher `fetch_from_cryptopanic`: on status 200 map the first 5 posts, otherwise
(and on any exception) return the empty list. -/
def fetch_from_cryptopanic (query : String) (call : HttpResult CryptoPanicPayload) :
    List SearchResult :=
  match call with
  | .exn _ => []
  | .response status payload =>
      if status = 200 then (payload.results.take 5).map (cryptopanicRecord query)
      else []

/-! ## CoinGecko trending fetcher (src/app.py lines 140–178) -/

/-- The `item` object of one entry of the `coins` array of a CoinGecko
trending response (the numeric fields are interpolated into strings verbatim,
so they are kept as strings). -/
structure TrendingItem where
  name : String
  symbol : String
  id : String
  market_cap_rank : String
  price : String
  total_volume : String
deriving Repr, DecidableEq

/-- A parsed CoinGecko trending response body; each element of `coins` is the
`item` object of the corresponding array entry. -/
structure TrendingPayload where
  coins : List TrendingItem
deriving Repr, DecidableEq

/-- The record `fetch_from_coingecko` appends for one trending coin. -/
def coingeckoRecord (query : String) (item : TrendingItem) : SearchResult :=
  { score := calculate_relevance_score query item.name
    title := "🔥 " ++ item.name ++ " (" ++ pyUpper item.symbol ++ ") - Trending"
    body := item.name ++ " is currently trending on CoinGecko. Market Cap Rank: #"
      ++ item.market_cap_rank ++ ". Price: $" ++ item.price
    url := "https://www.coingecko.com/en/coins/" ++ item.id
    highlightBody :=
      ["🔥 Trending: " ++ item.name,
       "Rank: #" ++ item.market_cap_rank,
       "24h Volume: $" ++ item.total_volume] }

/-- The fetcher `fetch_from_coingecko`: on status 200 map the first 3 trending coins,
otherwise (and on any exception) return the empty list. -/
def fetch_from_coingecko (query : String) (call : HttpResult TrendingPayload) :
    List SearchResult :=
  match call with
  | .exn _ => []
  | .response status payload =>
      if status = 200 then (payload.coins.take 3).map (coingeckoRecord query)
      else []

/-! ## Price fetcher (src/app.py lines 180–251) -/

/-- The `coin_map` table of `fetch_crypto_prices`, in source order. -/
def coin_map : List (String × String) :=
  [("bitcoin", "bitcoin"), ("btc", "bitcoin"), ("ethereum", "ethereum"),
   ("eth", "ethereum"), ("solana", "solana"), ("sol", "solana"),
   ("cardano", "cardano"), ("ada", "cardano"), ("xrp", "ripple"),
   ("ripple", "ripple")]

/-- The `coin_ids` list `fetch_crypto_prices` requests: the mapped id of every
keyword of `coin_map` contained in the lowercased query, in table order, or
`['bitcoin', 'ethereum', 'solana']` when no keyword matches. -/
def coin_ids (query : String) : List String :=
  let query_lower := pyLower query
  let ids := coin_map.foldl
    (fun acc kv => if pyIn kv.1 query_lower then acc ++ [kv.2] else acc) []
  if ids = [] then ["bitcoin", "ethereum", "solana"] else ids

/-- The value of one key of a CoinGecko simple-price response. -/
structure PriceData where
  usd : ℚ
  usd_24h_change : ℚ
  usd_market_cap : ℚ
deriving Repr, DecidableEq

/-- A parsed simple-price response body: the key/value pairs of the JSON
object, in iteration order. -/
structure PricePayload where
  items : List (String × PriceData)
deriving Repr, DecidableEq

/-- The record `fetch_crypto_prices` appends for one price entry.  Note the
hardcoded score `0.9`. -/
def priceRecord (entry : String × PriceData) : SearchResult :=
  let coin_id := entry.1
  let pd := entry.2
  let emoji := if 0 < pd.usd_24h_change then "📈" else "📉"
  { score := 9/10
    title := emoji ++ " " ++ pyCapitalize coin_id ++ " Price Update"
    body := pyCapitalize coin_id ++ " is trading at $" ++ fmt2 pd.usd
      ++ " with a 24h change of " ++ fmt2 pd.usd_24h_change
      ++ "%. Market Cap: $" ++ fmt0 pd.usd_market_cap
    url := "https://www.coingecko.com/en/coins/" ++ coin_id
    highlightBody :=
      ["Price: $" ++ fmt2 pd.usd,
       "24h Change: " ++ fmt2 pd.usd_24h_change ++ "%",
       "Market Cap: $" ++ fmt0 pd.usd_market_cap] }

/-- The fetcher `fetch_crypto_prices`: on status 200 map every entry of the response
object (no prefix bound), otherwise (and on any exception) return the empty
list. -/
def fetch_crypto_prices (query : String) (call : HttpResult PricePayload) :
    List SearchResult :=
  let _ids := coin_ids query
  match call with
  | .exn _ => []
  | .response status payload =>
      if status = 200 then payload.items.map priceRecord
      else []

/-! ## NewsAPI fetcher (src/app.py lines 253–292) -/

/-- The `source` object of a NewsAPI article. -/
structure NewsSource where
  name : String
deriving Repr, DecidableEq

/-- One element of the `articles` array of a NewsAPI response. -/
structure NewsArticle where
  title : String
  description : String
  content : String
  url : String
  publishedAt : String
  source : NewsSource
deriving Repr, DecidableEq

/-- A parsed NewsAPI response body. -/
structure NewsPayload where
  articles : List NewsArticle
deriving Repr, DecidableEq

/-- The record `fetch_from_newsapi` appends for one article (the body is the
description when truthy, else the first 200 characters of the content). -/
def newsapiRecord (query : String) (a : NewsArticle) : SearchResult :=
  { score := calculate_relevance_score query a.title
    title := a.title
    body := if a.description ≠ "" then a.description else pyTake a.content 200
    url := a.url
    highlightBody :=
      [a.title,
       "Source: " ++ a.source.name,
       "Published: " ++ a.publishedAt] }

/-- The fetcher `fetch_from_newsapi`: on status 200 map the first 3 articles, otherwise
(and on any exception) return the empty list. -/
def fetch_from_newsapi (query : String) (call : HttpResult NewsPayload) :
    List SearchResult :=
  match call with
  | .exn _ => []
  | .response status payload =>
      if status = 200 then (payload.articles.take 3).map (newsapiRecord query)
      else []

/-! ## Aggregator (src/app.py lines 53–79) -/

/-- The module-level configuration: the two optional API keys (empty string =
unset, matching Python's `os.environ.get(..., '')` and its truthiness test). -/
structure Env where
  CRYPTOPANIC_API_KEY : String
  NEWSAPI_KEY : String
deriving Repr, DecidableEq

/-- The outcomes of the four outbound calls a request may perform, one per
source. -/
structure SourceCalls where
  coingecko : HttpResult TrendingPayload
  cryptopanic : HttpResult CryptoPanicPayload
  prices : HttpResult PricePayload
  newsapi : HttpResult NewsPayload
deriving Repr, DecidableEq

/-- The aggregator `fetch_crypto_news`: call each source in order (the two keyed sources only
when their key is set), concatenate, sort by score descending and keep the
first 10. -/
def fetch_crypto_news (env : Env) (query : String) (calls : SourceCalls) :
    List SearchResult :=
  let results :=
    fetch_from_coingecko query calls.coingecko
    ++ (if env.CRYPTOPANIC_API_KEY ≠ "" then fetch_from_cryptopanic query calls.cryptopanic else [])
    ++ fetch_crypto_prices query calls.prices
    ++ (if env.NEWSAPI_KEY ≠ "" then fetch_from_newsapi query calls.newsapi else [])
  aggregateResults results

/-! ## Properties of the stable descending sort -/

/-- The score ordering used by the aggregator's sort. -/
def scoreGE (a b : SearchResult) : Prop := b.score ≤ a.score

lemma mem_insertDesc {y r : SearchResult} {l : List SearchResult} :
    y ∈ insertDesc r l ↔ y = r ∨ y ∈ l := by
  induction l with
  | nil => simp [insertDesc]
  | cons x xs ih =>
    rw [insertDesc]
    by_cases hx : x.score ≤ r.score
    · simp [hx]
    · simp only [if_neg hx, List.mem_cons, ih]
      tauto

lemma pairwise_insertDesc {r : SearchResult} {l : List SearchResult}
    (h : l.Pairwise scoreGE) : (insertDesc r l).Pairwise scoreGE := by
  induction l with
  | nil => simp [insertDesc]
  | cons x xs ih =>
    rw [insertDesc]
    rcases List.pairwise_cons.mp h with ⟨hx, hxs⟩
    by_cases hc : x.score ≤ r.score
    · rw [if_pos hc]
      refine List.pairwise_cons.mpr ⟨?_, h⟩
      intro b hb
      rcases List.mem_cons.mp hb with hb | hb
      · exact hb ▸ hc
      · exact le_trans (hx b hb) hc
    · rw [if_neg hc]
      refine List.pairwise_cons.mpr ⟨?_, ih hxs⟩
      intro b hb
      rcases mem_insertDesc.mp hb with hb | hb
      · exact hb ▸ le_of_lt (lt_of_not_le hc)
      · exact hx b hb

lemma pairwise_sortDesc (l : List SearchResult) : (sortDesc l).Pairwise scoreGE := by
  induction l with
  | nil => simp [sortDesc]
  | cons x xs ih => exact pairwise_insertDesc ih

lemma perm_insertDesc (r : SearchResult) (l : List SearchResult) :
    List.Perm (insertDesc r l) (r :: l) := by
  induction l with
  | nil => rfl
  | cons x xs ih =>
    rw [insertDesc]
    by_cases hc : x.score ≤ r.score
    · rw [if_pos hc]
    · rw [if_neg hc]
      exact (ih.cons x).trans (List.Perm.swap r x xs)

lemma perm_sortDesc (l : List SearchResult) : List.Perm (sortDesc l) l := by
  induction l with
  | nil => rfl
  | cons x xs ih =>
    rw [sortDesc]
    exact (perm_insertDesc x (sortDesc xs)).trans (ih.cons x)

lemma length_sortDesc (l : List SearchResult) : (sortDesc l).length = l.length :=
  (perm_sortDesc l).length_eq

lemma filter_insertDesc (s : ℚ) (r : SearchResult) (l : List SearchResult) :
    (insertDesc r l).filter (fun x => x.score = s) =
      if r.score = s then r :: l.filter (fun x => x.score = s)
      else l.filter (fun x => x.score = s) := by
  induction l with
  | nil =>
    by_cases hr : r.score = s <;>
      simp [insertDesc, List.filter, hr]
  | cons x xs ih =>
    rw [insertDesc]
    by_cases hc : x.score ≤ r.score
    · rw [if_pos hc]
      by_cases hr : r.score = s <;> simp [List.filter_cons, hr]
    · rw [if_neg hc]
      have hxr : r.score < x.score := lt_of_not_le hc
      by_cases hr : r.score = s
      · have hx : ¬ x.score = s := by
          intro hxs
          rw [hr, hxs] at hxr
          exact lt_irrefl s hxr
        simp [List.filter_cons, hx, ih, hr]
      · by_cases hx : x.score = s <;> simp [List.filter_cons, hx, ih, hr]

lemma filter_sortDesc (s : ℚ) (l : List SearchResult) :
    (sortDesc l).filter (fun x => x.score = s) = l.filter (fun x => x.score = s) := by
  induction l with
  | nil => rfl
  | cons x xs ih =>
    rw [sortDesc, filter_insertDesc]
    by_cases hx : x.score = s <;> simp [List.filter_cons, hx, ih]

lemma filter_take_exists (p : SearchResult → Bool) :
    ∀ (l : List SearchResult) (n : Nat), ∃ m, (l.take n).filter p = (l.filter p).take m := by
  intro l
  induction l with
  | nil => intro n; exact ⟨0, by simp⟩
  | cons x xs ih =>
    intro n
    cases n with
    | zero => exact ⟨0, by simp⟩
    | succ k =>
      obtain ⟨m, hm⟩ := ih k
      by_cases hx : p x
      · exact ⟨m + 1, by simp [List.take_succ_cons, List.filter_cons, hx, hm]⟩
      · exact ⟨m, by simp [List.take_succ_cons, List.filter_cons, hx, hm]⟩

/-! ## Properties of the relevance scorer -/

lemma relevance_formula_bounds (m n : Nat) (hn : 0 < n) (hm : m ≤ n) :
    1/2 ≤ 1/2 + ((m : ℚ) / (n : ℚ)) * (2/5) ∧
      1/2 + ((m : ℚ) / (n : ℚ)) * (2/5) ≤ 9/10 := by
  have h0 : (0:ℚ) ≤ (m : ℚ) / (n : ℚ) := by positivity
  have h1 : (m : ℚ) / (n : ℚ) ≤ 1 := by
    rw [div_le_one (by exact_mod_cast hn)]
    exact_mod_cast hm
  constructor <;> nlinarith

/-- The scorer always lands in one of three shapes: 0.5, 0.95, or the keyword
formula with a match count bounded by a positive word count. -/
lemma relevance_cases (query text : String) :
    calculate_relevance_score query text = 1/2 ∨
    calculate_relevance_score query text = 19/20 ∨
    ∃ m n : Nat, 0 < n ∧ m ≤ n ∧
      calculate_relevance_score query text = 1/2 + ((m : ℚ) / (n : ℚ)) * (2/5) := by
  simp only [calculate_relevance_score]
  split_ifs with h1 h2 h3
  · left; rfl
  · right; left; rfl
  · left; rfl
  · right; right
    exact ⟨_, _, List.length_pos.mpr h3, List.countP_le_length _, rfl⟩

/-- C1: the relevance scorer, applied to a query and a candidate text, returns
0.5 if either input is empty; otherwise 0.95 if the lowercased query is a
substring of the lowercased text; otherwise, with `W` the words of the
lowercased query longer than 3 characters, 0.5 if `W` is empty and
`0.5 + 0.4 × (matched fraction of W)` if not — the three cases tested in that
order. -/
theorem calculate_relevance_score_eq_spec (query text : String) :
    calculate_relevance_score query text = relevanceSpec query text := by
  simp only [calculate_relevance_score, relevanceSpec]
  split_ifs with h1 h2 h3
  · rfl
  · rfl
  · rfl
  · rw [List.countP_eq_length_filter]
    ring

/-- C6: the relevance score always lies in [0, 1]. -/
theorem relevance_score_in_unit_interval (query text : String) :
    0 ≤ calculate_relevance_score query text ∧ calculate_relevance_score query text ≤ 1 := by
  rcases relevance_cases query text with h | h | ⟨m, n, hn, hm, h⟩
  · rw [h]; norm_num
  · rw [h]; norm_num
  · rw [h]
    rcases relevance_formula_bounds m n hn hm with ⟨hlo, hhi⟩
    constructor <;> linarith

/-- C9: for non-empty query and text the relevance score lies in [0.5, 0.95]:
a text sharing no query word still scores 0.5, and no score exceeds the
substring-match score 0.95. -/
theorem relevance_score_bounds_nonempty (query text : String)
    (_hq : query ≠ "") (_ht : text ≠ "") :
    1/2 ≤ calculate_relevance_score query text ∧
      calculate_relevance_score query text ≤ 19/20 := by
  rcases relevance_cases query text with h | h | ⟨m, n, hn, hm, h⟩
  · rw [h]; norm_num
  · rw [h]; norm_num
  · rw [h]
    rcases relevance_formula_bounds m n hn hm with ⟨hlo, hhi⟩
    constructor <;> linarith

/-- Witness for C9 at query `"abcd"`, text `"zzzz"` (no shared words). -/
theorem relevance_score_bounds_nonempty_witness :
    ("abcd" ≠ "" ∧ "zzzz" ≠ "") ∧
    (1/2 ≤ calculate_relevance_score "abcd" "zzzz" ∧
      calculate_relevance_score "abcd" "zzzz" ≤ 19/20) :=
  ⟨⟨by decide, by decide⟩,
   relevance_score_bounds_nonempty "abcd" "zzzz" (by decide) (by decide)⟩

/-- C5 counterexample: the empty query is (vacuously) a substring of any text,
yet the scorer returns 0.5, not 0.95 — the substring rule does not hold
without the non-emptiness precondition. -/
theorem relevance_empty_query_substring_cex :
    pyIn (pyLower "") (pyLower "x") = true ∧
    calculate_relevance_score "" "x" = 1/2 ∧ ((1:ℚ)/2 ≠ 19/20) :=
  ⟨by decide, rfl, by norm_num⟩

/-- C5 (amended): for non-empty query and text, case-insensitive substring
containment yields exactly 0.95; in particular
`relevance("bitcoin", "Bitcoin rallies today") = 0.95`. -/
theorem relevance_substring_score (query text : String)
    (hq : query ≠ "") (ht : text ≠ "")
    (hsub : pyIn (pyLower query) (pyLower text) = true) :
    calculate_relevance_score query text = 19/20 := by
  simp only [calculate_relevance_score]
  rw [if_neg (not_or.mpr ⟨hq, ht⟩), if_pos hsub]

/-- Witness for the amended C5: the spec's own example. -/
theorem relevance_substring_score_witness :
    ("bitcoin" ≠ "" ∧ "Bitcoin rallies today" ≠ "" ∧
      pyIn (pyLower "bitcoin") (pyLower "Bitcoin rallies today") = true) ∧
    calculate_relevance_score "bitcoin" "Bitcoin rallies today" = 19/20 :=
  ⟨⟨by decide, by decide, by decide⟩,
   relevance_substring_score "bitcoin" "Bitcoin rallies today"
     (by decide) (by decide) (by decide)⟩

/-! ## Properties of the aggregator -/

/-- C2: for any concatenation of source outputs, the aggregated list is sorted
non-increasing by score, and its elements of any fixed score are an initial
segment of the input's elements of that score, in input order (stable sort,
source order preserved). -/
theorem fetch_crypto_news_sorted_stable (s1 s2 s3 s4 : List SearchResult) :
    (aggregateResults (s1 ++ s2 ++ s3 ++ s4)).Pairwise scoreGE ∧
    ∀ s : ℚ, ∃ m,
      (aggregateResults (s1 ++ s2 ++ s3 ++ s4)).filter (fun r => r.score = s) =
        ((s1 ++ s2 ++ s3 ++ s4).filter (fun r => r.score = s)).take m := by
  constructor
  · exact List.Pairwise.sublist (List.take_sublist _ _) (pairwise_sortDesc _)
  · intro s
    obtain ⟨m, hm⟩ :=
      filter_take_exists (fun r => decide (r.score = s)) (sortDesc (s1 ++ s2 ++ s3 ++ s4)) 10
    refine ⟨m, ?_⟩
    rw [aggregateResults, hm, filter_sortDesc]

/-- C3: the aggregator keeps at most 10 results; with at least 10 inputs it
keeps exactly 10, and they are the highest-scored ones: the kept results
together with the discarded rest permute the input, and every kept score
dominates every discarded score. -/
theorem fetch_crypto_news_top10 (s1 s2 s3 s4 : List SearchResult) :
    (aggregateResults (s1 ++ s2 ++ s3 ++ s4)).length ≤ 10 ∧
    (10 ≤ (s1 ++ s2 ++ s3 ++ s4).length →
      (aggregateResults (s1 ++ s2 ++ s3 ++ s4)).length = 10 ∧
      ∃ rest,
        List.Perm (aggregateResults (s1 ++ s2 ++ s3 ++ s4) ++ rest) (s1 ++ s2 ++ s3 ++ s4) ∧
        ∀ a ∈ aggregateResults (s1 ++ s2 ++ s3 ++ s4), ∀ b ∈ rest, b.score ≤ a.score) := by
  constructor
  · rw [aggregateResults, List.length_take]
    exact min_le_left _ _
  · intro hL
    refine ⟨?_, (sortDesc (s1 ++ s2 ++ s3 ++ s4)).drop 10, ?_, ?_⟩
    · rw [aggregateResults, List.length_take, length_sortDesc]
      exact min_eq_left hL
    · rw [aggregateResults, List.take_append_drop]
      exact perm_sortDesc _
    · intro a ha b hb
      exact List.Sorted.rel_of_mem_take_of_mem_drop (pairwise_sortDesc _) ha hb

/-- A concrete source output for the C3 witness: five records with distinct
scores. -/
def wSrc (k : Nat) : List SearchResult :=
  (List.range 5).map (fun i =>
    { score := ((k * 5 + i : Nat) : ℚ) / 20, title := "", body := "", url := "",
      highlightBody := [] })

/-- Witness for C3: four sources of five results each (the spec's example)
yield exactly 10 results. -/
theorem fetch_crypto_news_top10_witness :
    10 ≤ (wSrc 0 ++ wSrc 1 ++ wSrc 2 ++ wSrc 3).length ∧
    ((aggregateResults (wSrc 0 ++ wSrc 1 ++ wSrc 2 ++ wSrc 3)).length = 10 ∧
      ∃ rest,
        List.Perm (aggregateResults (wSrc 0 ++ wSrc 1 ++ wSrc 2 ++ wSrc 3) ++ rest)
          (wSrc 0 ++ wSrc 1 ++ wSrc 2 ++ wSrc 3) ∧
        ∀ a ∈ aggregateResults (wSrc 0 ++ wSrc 1 ++ wSrc 2 ++ wSrc 3),
          ∀ b ∈ rest, b.score ≤ a.score) :=
  ⟨by decide, (fetch_crypto_news_top10 (wSrc 0) (wSrc 1) (wSrc 2) (wSrc 3)).2 (by decide)⟩

/-! ## Error handling -/

/-- C7: every source fetcher returns the empty list — and, being a total
function, propagates nothing — when the outbound call raises an exception or
returns a non-success status, for every query. -/
theorem fetchers_failure_empty (query msg : String) (status : Nat) (hs : status ≠ 200) :
    fetch_from_coingecko query (.exn msg) = [] ∧
    (∀ p : TrendingPayload, fetch_from_coingecko query (.response status p) = []) ∧
    fetch_from_cryptopanic query (.exn msg) = [] ∧
    (∀ p : CryptoPanicPayload, fetch_from_cryptopanic query (.response status p) = []) ∧
    fetch_crypto_prices query (.exn msg) = [] ∧
    (∀ p : PricePayload, fetch_crypto_prices query (.response status p) = []) ∧
    fetch_from_newsapi query (.exn msg) = [] ∧
    (∀ p : NewsPayload, fetch_from_newsapi query (.response status p) = []) := by
  refine ⟨rfl, ?_, rfl, ?_, rfl, ?_, rfl, ?_⟩ <;> intro p <;>
    simp [fetch_from_coingecko, fetch_from_cryptopanic, fetch_crypto_prices,
      fetch_from_newsapi, hs]

/-- Witness for C7 at status 500. -/
theorem fetchers_failure_empty_witness :
    ((500 : Nat) ≠ 200) ∧
    (fetch_from_coingecko "btc" (.exn "boom") = [] ∧
      (∀ p : TrendingPayload, fetch_from_coingecko "btc" (.response 500 p) = []) ∧
      fetch_from_cryptopanic "btc" (.exn "boom") = [] ∧
      (∀ p : CryptoPanicPayload, fetch_from_cryptopanic "btc" (.response 500 p) = []) ∧
      fetch_crypto_prices "btc" (.exn "boom") = [] ∧
      (∀ p : PricePayload, fetch_crypto_prices "btc" (.response 500 p) = []) ∧
      fetch_from_newsapi "btc" (.exn "boom") = [] ∧
      (∀ p : NewsPayload, fetch_from_newsapi "btc" (.response 500 p) = [])) :=
  ⟨by decide, fetchers_failure_empty "btc" "boom" 500 (by decide)⟩

/-- C8: the aggregator calls the sources independently; a source whose call
fails contributes exactly as if it had returned an empty sequence, leaving
every other source's results in place — for each of the four sources. -/
theorem fetch_crypto_news_source_independent (env : Env) (query msg : String)
    (calls : SourceCalls) :
    (calls.coingecko = .exn msg →
      fetch_crypto_news env query calls =
        fetch_crypto_news env query { calls with coingecko := .response 200 ⟨[]⟩ }) ∧
    (calls.cryptopanic = .exn msg →
      fetch_crypto_news env query calls =
        fetch_crypto_news env query { calls with cryptopanic := .response 200 ⟨[]⟩ }) ∧
    (calls.prices = .exn msg →
      fetch_crypto_news env query calls =
        fetch_crypto_news env query { calls with prices := .response 200 ⟨[]⟩ }) ∧
    (calls.newsapi = .exn msg →
      fetch_crypto_news env query calls =
        fetch_crypto_news env query { calls with newsapi := .response 200 ⟨[]⟩ }) := by
  refine ⟨?_, ?_, ?_, ?_⟩ <;> intro h <;>
    simp [fetch_crypto_news, h, fetch_from_coingecko, fetch_from_cryptopanic,
      fetch_crypto_prices, fetch_from_newsapi]

/-- A configuration with both optional keys set, for the C8 witness. -/
def envBothKeys : Env := ⟨"k1", "k2"⟩

/-- Four failing outbound calls, for the C8 witness. -/
def callsAllExn : SourceCalls := ⟨.exn "down", .exn "down", .exn "down", .exn "down"⟩

/-- Witness for C8: with the trending call failing, the output equals the
output on an empty trending response. -/
theorem fetch_crypto_news_source_independent_witness :
    callsAllExn.coingecko = .exn "down" ∧
    fetch_crypto_news envBothKeys "btc" callsAllExn =
      fetch_crypto_news envBothKeys "btc" { callsAllExn with coingecko := .response 200 ⟨[]⟩ } :=
  ⟨rfl, (fetch_crypto_news_source_independent envBothKeys "btc" "down" callsAllExn).1 rfl⟩

/-! ## Success-path mapping of the fetchers (C4) -/

/-- A successful six-entry price response, for the C4 counterexample. -/
def pricesCexPayload : PricePayload :=
  ⟨[("a", ⟨1, 1, 1⟩), ("b", ⟨1, 1, 1⟩), ("c", ⟨1, 1, 1⟩),
    ("d", ⟨1, 1, 1⟩), ("e", ⟨1, 1, 1⟩), ("f", ⟨1, 1, 1⟩)]⟩

/-- C4 counterexample: on a successful six-entry price response the price
fetcher produces six records — more than any 3–5-item prefix allows — and
their score is the constant 0.9, whereas the relevance function on this query
returns 0.5 on every candidate text (in particular on the produced record's
own title and body), so no application of the relevance function produced the
score. -/
theorem price_fetcher_mapping_cex :
    (fetch_crypto_prices "" (.response 200 pricesCexPayload)).length = 6 ∧
    ¬ ((fetch_crypto_prices "" (.response 200 pricesCexPayload)).length ≤ 5) ∧
    (fetch_crypto_prices "" (.response 200 pricesCexPayload)).head?.map
      SearchResult.score = some (9/10) ∧
    (fetch_crypto_prices "" (.response 200 pricesCexPayload)).head?.map
      (fun r => calculate_relevance_score "" r.title) = some (1/2) ∧
    (fetch_crypto_prices "" (.response 200 pricesCexPayload)).head?.map
      (fun r => calculate_relevance_score "" r.body) = some (1/2) ∧
    ((9 : ℚ)/10 ≠ 1/2) :=
  ⟨rfl, by decide, rfl, rfl, rfl, by norm_num⟩

/-- C4 (amended): the CryptoPanic, CoinGecko-trending and NewsAPI fetchers map
prefixes of at most 5, 3 and 3 items of a successful response into records
whose score is the relevance function applied to the query and the item's
title (the coin name for the trending fetcher); the price fetcher instead maps
every entry of the response, with the constant score 0.9. -/
theorem fetchers_success_mapping (query : String) (cp : CryptoPanicPayload)
    (tr : TrendingPayload) (pr : PricePayload) (na : NewsPayload) :
    (fetch_from_cryptopanic query (.response 200 cp) =
        (cp.results.take 5).map (cryptopanicRecord query) ∧
      ∀ post, (cryptopanicRecord query post).score =
        calculate_relevance_score query post.title) ∧
    (fetch_from_coingecko query (.response 200 tr) =
        (tr.coins.take 3).map (coingeckoRecord query) ∧
      ∀ item, (coingeckoRecord query item).score =
        calculate_relevance_score query item.name) ∧
    (fetch_from_newsapi query (.response 200 na) =
        (na.articles.take 3).map (newsapiRecord query) ∧
      ∀ a, (newsapiRecord query a).score = calculate_relevance_score query a.title) ∧
    (fetch_crypto_prices query (.response 200 pr) = pr.items.map priceRecord ∧
      ∀ entry, (priceRecord entry).score = 9/10) ∧
    (fetch_from_cryptopanic query (.response 200 cp)).length ≤ 5 ∧
    (fetch_from_coingecko query (.response 200 tr)).length ≤ 3 ∧
    (fetch_from_newsapi query (.response 200 na)).length ≤ 3 := by
  refine ⟨⟨rfl, fun _ => rfl⟩, ⟨rfl, fun _ => rfl⟩, ⟨rfl, fun _ => rfl⟩,
    ⟨rfl, fun _ => rfl⟩, ?_, ?_, ?_⟩ <;>
    simp [fetch_from_cryptopanic, fetch_from_coingecko, fetch_from_newsapi,
      List.length_take]

/-! ## The requested coin ids of the price fetcher (C10) -/

lemma coin_ids_foldl (query_lower : String) (l : List (String × String))
    (acc : List String) :
    l.foldl (fun acc kv => if pyIn kv.1 query_lower then acc ++ [kv.2] else acc) acc
      = acc ++ l.filterMap (fun kv => if pyIn kv.1 query_lower then some kv.2 else none) := by
  induction l generalizing acc with
  | nil => simp
  | cons x xs ih =>
    by_cases hx : pyIn x.1 query_lower <;>
      simp [List.foldl_cons, List.filterMap_cons, hx, ih]

/-- C10: if no keyword of `coin_map` occurs in the lowercased query, the
requested ids are exactly `['bitcoin', 'ethereum', 'solana']`; otherwise they
are the mapped ids of every matching keyword in table order, duplicates
included — e.g. `"bitcoin btc"` yields `'bitcoin'` twice. -/
theorem coin_ids_characterization (query : String) :
    ((∀ kv ∈ coin_map, pyIn kv.1 (pyLower query) = false) →
      coin_ids query = ["bitcoin", "ethereum", "solana"]) ∧
    ((∃ kv ∈ coin_map, pyIn kv.1 (pyLower query) = true) →
      coin_ids query =
        coin_map.filterMap (fun kv => if pyIn kv.1 (pyLower query) then some kv.2 else none)) ∧
    coin_ids "bitcoin btc" = ["bitcoin", "bitcoin"] := by
  refine ⟨?_, ?_, by decide⟩
  · intro hnone
    have h : coin_map.filterMap
        (fun kv => if pyIn kv.1 (pyLower query) then some kv.2 else none) = [] := by
      rw [List.filterMap_eq_nil_iff]
      intro kv hkv
      rw [if_neg]
      simp [hnone kv hkv]
    simp only [coin_ids, coin_ids_foldl, List.nil_append, h]
    rfl
  · rintro ⟨kv, hkv, hpy⟩
    have h : coin_map.filterMap
        (fun kv => if pyIn kv.1 (pyLower query) then some kv.2 else none) ≠ [] := by
      intro hc
      rw [List.filterMap_eq_nil_iff] at hc
      have hnone := hc kv hkv
      rw [if_pos hpy] at hnone
      exact Option.some_ne_none _ hnone
    simp only [coin_ids, coin_ids_foldl, List.nil_append]
    rw [if_neg h]

/-- Witness for C10 at the duplicate-producing query of the claim. -/
theorem coin_ids_characterization_witness :
    (∃ kv ∈ coin_map, pyIn kv.1 (pyLower "bitcoin btc") = true) ∧
    coin_ids "bitcoin btc" =
      coin_map.filterMap
        (fun kv => if pyIn kv.1 (pyLower "bitcoin btc") then some kv.2 else none) :=
  ⟨⟨("bitcoin", "bitcoin"), by decide, by decide⟩,
   (coin_ids_characterization "bitcoin btc").2.1
     ⟨("bitcoin", "bitcoin"), by decide, by decide⟩⟩
